import Mathlib

/-!
# PortaPack (havoc) menu and geomap widgets

A shallow embedding of `firmware/application/ui_menu.cpp` and
`firmware/application/ui_geomap.cpp`, and theorems about it.

Conventions of the embedding.

* The target is a 32-bit ARM core: `size_t` and `uint32_t` are values in
  `[0, 2^32)`, `int32_t` values lie in `[-2^31, 2^31)`.  They are carried as
  `Nat` / `Int`, and every C++ operation that wraps is followed by an explicit
  reduction (`toU32`, `toI32`, `toI16`).
* `std::vector<MenuItemView*>` is a `List MenuItemView`; `menu_items_[index]`
  with `index` outside the vector has no defined behaviour in C++ and is the
  `none` result of every operation that evaluates it.
* Callbacks (`on_select`, `on_left`, `on_change`, `on_move`), painting and
  the dirty flag are outside the embedding.
* `float` / `double` expressions of `ui_geomap.cpp` are read over exact
  rational arithmetic (`ℚ`); the conversion to an integer truncates toward
  zero as the C++ conversion does.
-/

namespace ui

/-! ## Machine integers -/

/-- Conversion of an integer to `uint32_t` / `size_t` (reduction modulo `2^32`). -/
def toU32 (z : Int) : Nat := (z % 4294967296).toNat

/-- Conversion of an unsigned 32-bit value to `int32_t` (two's complement reading). -/
def toI32 (n : Nat) : Int :=
  if n % 4294967296 < 2147483648 then ((n % 4294967296 : Nat) : Int)
  else ((n % 4294967296 : Nat) : Int) - 4294967296

/-- Modelled from the spec: the cast `(Coord)` of an unsigned value.  The
type `Coord` is declared in `ui.hpp`, which is not among the sources at hand;
it is taken as the 16-bit signed screen coordinate of the firmware.  For the
heights `0 .. 32767` used below a wider `Coord` gives the same value. -/
def toI16 (n : Nat) : Int :=
  if n % 65536 < 32768 then ((n % 65536 : Nat) : Int)
  else ((n % 65536 : Nat) : Int) - 65536

/-! ## MenuItemView -/

/-- The payload of a menu entry (text and colour; the bitmap and the
`on_select` callback carry no state of the embedding). -/
structure MenuItem where
  text : String
  color : Nat
deriving DecidableEq

/-- One row of the menu: the wrapped item with the widget flags that
`ui_menu.cpp` writes (`set_highlighted`, `hidden`, `set_parent_rect`). -/
structure MenuItemView where
  item : MenuItem
  keep_highlight_ : Bool
  highlighted_ : Bool
  hidden_ : Bool
  /-- top of the parent rectangle stored by `set_parent_rect`, a `Coord` -/
  y_pos : Int
deriving DecidableEq

/-- The method `MenuItemView::highlight`. -/
def MenuItemView.highlight (v : MenuItemView) : MenuItemView :=
  { v with highlighted_ := true }

/-- The method `MenuItemView::unhighlight`. -/
def MenuItemView.unhighlight (v : MenuItemView) : MenuItemView :=
  { v with highlighted_ := false }

/-- The allocation `new MenuItemView { new_item, keep_highlight_ }`: a widget
that is neither highlighted nor hidden, with an empty rectangle. -/
def MenuItemView.new (new_item : MenuItem) (keep_highlight : Bool) : MenuItemView :=
  { item := new_item, keep_highlight_ := keep_highlight,
    highlighted_ := false, hidden_ := false, y_pos := 0 }

/-! ## MenuView -/

/-- The state of a `MenuView`.  `height` is the height of the parent
rectangle (`parent_rect().size().height()`, equal to
`screen_rect().size().height()`). -/
structure MenuView where
  height : Int
  keep_highlight_ : Bool
  menu_items_ : List MenuItemView
  blink_ : Bool
  more_ : Bool
  displayed_max_ : Nat
  highlighted_ : Nat
  offset_ : Nat
deriving DecidableEq

/-- The row height, `const size_t item_height = 24`. -/
def item_height : Nat := 24

/-- Modelled from the spec: the member initialisers of `ui_menu.hpp`
(`blink_`, `more_` false, `highlighted_`, `offset_` zero, no items), followed
by the constructor body of `MenuView::MenuView`, which derives
`displayed_max_` from the height of the parent rectangle. -/
def MenuView.new (height : Int) (keep_highlight : Bool) : MenuView :=
  { height := height, keep_highlight_ := keep_highlight, menu_items_ := [],
    blink_ := false, more_ := false,
    displayed_max_ := toU32 (Int.tdiv height 24),
    highlighted_ := 0, offset_ := 0 }

/-- The vertical position `y_pos = (i - offset_) * item_height` of row `i`:
unsigned 32-bit arithmetic, stored in an `int32_t`. -/
def row_y_pos (offset_ i : Nat) : Int :=
  toI32 (toU32 ((toU32 ((i : Int) - (offset_ : Int)) : Int) * (item_height : Int)))

/-- The bound `(Coord)(screen_rect().size().height() - item_height)`. -/
def last_row_y (height : Int) : Int :=
  toI16 (toU32 (height - (item_height : Int)))

/-- Modelled from the spec: the narrowing of a position stored in a
rectangle.  The call `set_parent_rect({ { 0, y_pos }, ... })` builds a `Point`
whose coordinates are `Coord` values; `Point` and `Coord` are declared in
`ui.hpp`, which is not among the sources at hand, and `Coord` is the 16-bit
signed type of `toI16`. -/
def to_coord (z : Int) : Int := toI16 (toU32 z)

/-- The `for (auto item : menu_items_)` loop of `MenuView::update_items`,
started with the counter at `i`.  The rectangle keeps `y_pos` narrowed to a
`Coord`; the test for `hidden` reads the local `int32_t y_pos`. -/
def update_items_loop (offset_ : Nat) (height : Int) : Nat → List MenuItemView → List MenuItemView
  | _, [] => []
  | i, item :: rest =>
    let y_pos := row_y_pos offset_ i
    { item with
      y_pos := to_coord y_pos,
      hidden_ := decide (y_pos < 0) || decide (y_pos > last_row_y height) }
      :: update_items_loop offset_ height (i + 1) rest

/-- The method `MenuView::update_items`. -/
def MenuView.update_items (s : MenuView) : MenuView :=
  let more := decide (s.menu_items_.length > toU32 ((s.displayed_max_ : Int) + (s.offset_ : Int)))
  { s with
    more_ := more,
    blink_ := if more then true else s.blink_,
    menu_items_ := update_items_loop s.offset_ s.height 0 s.menu_items_ }

/-- The method `MenuView::clear`. -/
def MenuView.clear (s : MenuView) : MenuView :=
  MenuView.update_items { s with menu_items_ := [] }

/-- The method `MenuView::add_item`. -/
def MenuView.add_item (s : MenuView) (new_item : MenuItem) : MenuView :=
  MenuView.update_items
    { s with menu_items_ := s.menu_items_ ++ [MenuItemView.new new_item s.keep_highlight_] }

/-- The method `MenuView::add_items`. -/
def MenuView.add_items (s : MenuView) (new_items : List MenuItem) : MenuView :=
  new_items.foldl MenuView.add_item s

/-- The method `MenuView::item_view`: `menu_items_[index]`, `none` outside the vector. -/
def MenuView.item_view (s : MenuView) (index : Nat) : Option MenuItemView :=
  s.menu_items_[index]?

/-- The method `MenuView::highlighted`. -/
def MenuView.highlighted (s : MenuView) : Nat := s.highlighted_

/-- The scroll step of `MenuView::set_highlighted`: the two branches that
move `offset_` (both call `update_items`), applied to the clamped value. -/
def MenuView.scroll_to (s : MenuView) (new_value : Int) : MenuView :=
  if toU32 new_value > s.offset_ ∧
      toU32 (new_value - (s.offset_ : Int)) ≥ s.displayed_max_ then
    MenuView.update_items
      { s with offset_ := toU32 (new_value - (s.displayed_max_ : Int) + 1) }
  else if toU32 new_value < s.offset_ then
    MenuView.update_items { s with offset_ := toU32 new_value }
  else s

/-- The call `item_view(index)->highlight()` (`value = true`) or
`item_view(index)->unhighlight()` (`value = false`): a write through the
pointer stored at `index`. -/
def MenuView.set_item_highlighted (s : MenuView) (index : Nat) (value : Bool) :
    Option MenuView :=
  match s.item_view index with
  | none => none
  | some v =>
    some { s with
      menu_items_ := s.menu_items_.set index (if value then v.highlight else v.unhighlight) }

/-- The method `MenuView::set_highlighted`.  The result is `none` when an
`item_view(...)` outside the vector is evaluated.  `item_count - 1` is not
reduced: `item_count` is the `int32_t` reading of a size, and for sizes below
`2^31` the subtraction does not overflow. -/
def MenuView.set_highlighted (s : MenuView) (new_value : Int) : Option (MenuView × Bool) :=
  let item_count : Int := toI32 s.menu_items_.length
  if new_value < 0 then some (s, false)
  else
    let new_value := if new_value ≥ item_count then item_count - 1 else new_value
    let s1 := s.scroll_to new_value
    match s1.set_item_highlighted s1.highlighted_ false with
    | none => none
    | some s2 =>
      let s3 := { s2 with highlighted_ := toU32 new_value }
      match s3.set_item_highlighted s3.highlighted_ true with
      | none => none
      | some s4 => some (s4, true)

/-- The method `MenuView::on_focus`. -/
def MenuView.on_focus (s : MenuView) : Option MenuView :=
  s.set_item_highlighted s.highlighted true

/-- The method `MenuView::on_blur`. -/
def MenuView.on_blur (s : MenuView) : Option MenuView :=
  if !s.keep_highlight_ then s.set_item_highlighted s.highlighted false else some s

/-- Modelled from the spec: the enumeration `KeyEvent` is declared in
`ui.hpp`, which is not among the sources at hand.  The five keys named by
`MenuView::on_key` are kept; every other value of the enumeration is
`Other`. -/
inductive KeyEvent where
  | Right | Left | Down | Up | Select
  | Other (code : Nat)
deriving DecidableEq

/-- The method `MenuView::on_key`.  `select()` and `on_left()` run callbacks,
which leave the state of the embedding as it is. -/
def MenuView.on_key (s : MenuView) (key : KeyEvent) : Option (MenuView × Bool) :=
  match key with
  | KeyEvent.Up => s.set_highlighted (toI32 (toU32 ((s.highlighted : Int) - 1)))
  | KeyEvent.Down => s.set_highlighted (toI32 (toU32 ((s.highlighted : Int) + 1)))
  | KeyEvent.Select | KeyEvent.Right =>
    match s.item_view s.highlighted with
    | none => none
    | some _ => some (s, true)
  | KeyEvent.Left => some (s, true)
  | KeyEvent.Other _ => some (s, false)

/-- The method `MenuView::on_encoder`; `event` is the signed 32-bit encoder delta. -/
def MenuView.on_encoder (s : MenuView) (event : Int) : Option (MenuView × Bool) :=
  match s.set_highlighted (toI32 (toU32 ((s.highlighted : Int) + event))) with
  | none => none
  | some (s1, _) => some (s1, true)

/-- The ranges of the unsigned members and of the vector size: `size_t`
members are below `2^32`, and the size of the vector converts to `int32_t`
without change (a vector of 4-byte pointers in a 32-bit address space holds
fewer than `2^30` elements). -/
def MenuView.InRange (s : MenuView) : Prop :=
  s.displayed_max_ < 4294967296 ∧ s.highlighted_ < 4294967296 ∧
  s.offset_ < 4294967296 ∧ s.menu_items_.length < 2147483648

instance (s : MenuView) : Decidable s.InRange := by
  unfold MenuView.InRange; infer_instance

/-- Ten items "0" .. "9" of one colour. -/
def ten_items : List MenuItem :=
  (List.range 10).map fun i => { text := toString i, color := 0 }

/-- The menu of the scenario: viewport height 120 (`displayed_max_ = 5`) and
ten items. -/
def menu10 : MenuView := (MenuView.new 120 false).add_items ten_items

/-- The menu of the scenario after `set_highlighted(7)`: `offset_ = 3`,
`highlighted_ = 7`. -/
def menu10_at7 : MenuView :=
  match menu10.set_highlighted 7 with
  | some (s, _) => s
  | none => menu10

/-- The data-model invariant of the menu: a non-empty item sequence has a
valid `highlighted_`, and `0 <= offset_ <= max(0, count - displayed_max_)`
(`offset_` is unsigned, so the lower bound is in the type). -/
def MenuView.Invariant (s : MenuView) : Prop :=
  (s.menu_items_ ≠ [] → s.highlighted_ < s.menu_items_.length) ∧
  (s.offset_ : Int) ≤ max 0 ((s.menu_items_.length : Int) - (s.displayed_max_ : Int))

instance (s : MenuView) : Decidable s.Invariant := by
  unfold MenuView.Invariant; infer_instance

/-- The states reached from a freshly constructed `MenuView` by calls of
`add_item`, `add_items` and `set_highlighted(n)` that return, with `n` a
32-bit signed value and no call of `clear`.  A call of `set_highlighted`
that evaluates `item_view` outside the vector has no state after it and is
not a step; the vector stays below `2^31` elements. -/
inductive MenuView.ReachableWithoutClear : MenuView → Prop
  | new (height : Int) (keep_highlight : Bool) :
      MenuView.ReachableWithoutClear (MenuView.new height keep_highlight)
  | add_item (s : MenuView) (new_item : MenuItem) :
      MenuView.ReachableWithoutClear s → s.menu_items_.length + 1 < 2147483648 →
      MenuView.ReachableWithoutClear (s.add_item new_item)
  | add_items (s : MenuView) (new_items : List MenuItem) :
      MenuView.ReachableWithoutClear s →
      s.menu_items_.length + new_items.length < 2147483648 →
      MenuView.ReachableWithoutClear (s.add_items new_items)
  | set_highlighted (s : MenuView) (n : Int) (s' : MenuView) (b : Bool) :
      MenuView.ReachableWithoutClear s → -2147483648 ≤ n → n < 2147483648 →
      s.set_highlighted n = some (s', b) →
      MenuView.ReachableWithoutClear s'

/-- The invariant that the operations other than `clear` maintain: the
ranges of the members, `highlighted_` valid (zero on the empty menu), and the
bound on `offset_`. -/
def MenuView.StrongInvariant (s : MenuView) : Prop :=
  s.InRange ∧ (s.menu_items_.length = 0 → s.highlighted_ = 0) ∧
  (s.menu_items_.length ≠ 0 → s.highlighted_ < s.menu_items_.length) ∧
  (s.offset_ : Int) ≤ max 0 ((s.menu_items_.length : Int) - (s.displayed_max_ : Int))

/-- A fresh menu with a 320-pixel viewport (`displayed_max_ = 13`) to which
1367 items were added. -/
def long_menu : MenuView :=
  (MenuView.new 320 false).add_items (List.replicate 1367 { text := "", color := 0 })

/-- A menu state of 178956972 rows with a 320-pixel viewport
(`displayed_max_ = 13`) scrolled to the top; it shows where the 32-bit
product `(i - offset_) * 24` wraps. -/
def huge_menu : MenuView :=
  { height := 320, keep_highlight_ := false,
    menu_items_ := List.replicate 178956972 (MenuItemView.new { text := "", color := 0 } false),
    blink_ := false, more_ := false, displayed_max_ := 13, highlighted_ := 0, offset_ := 0 }

/-! ## GeoPos -/

/-- Conversion of a `float` / `double` value to an integer type: truncation
toward zero. -/
def float_to_int (q : ℚ) : Int := if 0 ≤ q then ⌊q⌋ else ⌈q⌉

/-- Modelled from the spec: the state of a `GeoPos` (altitude, and latitude
and longitude each as signed degrees, minutes and seconds), as the values of
its seven `NumberField`s, with the report flag and the focusable flag of the
widget.  `NumberField` (`ui_widget.hpp`) is not among the sources at hand:
`set_value` stores and `value` returns the `int32_t` value of a field, and
values are taken within the range of the field, where `set_value` does not
alter them. -/
structure GeoPos where
  field_altitude : Int
  field_lat_degrees : Int
  field_lat_minutes : Int
  field_lat_seconds : Int
  field_lon_degrees : Int
  field_lon_minutes : Int
  field_lon_seconds : Int
  report_change : Bool
  focusable : Bool
deriving DecidableEq

/-- The argument `(uint32_t)abs(value / (1.0 / unit)) % 60` of the minutes
(`unit = 60`) and seconds (`unit = 3600`) fields.  Whether `abs` is the
integer or the floating overload, the converted value is the truncated
magnitude. -/
def sexagesimal_digit (value : ℚ) (unit : ℚ) : Int :=
  ((toU32 (float_to_int |value / (1 / unit)|) % 60 : Nat) : Int)

/-- The method `GeoPos::set_lat`. -/
def GeoPos.set_lat (g : GeoPos) (lat : ℚ) : GeoPos :=
  { g with
    field_lat_degrees := float_to_int lat,
    field_lat_minutes := sexagesimal_digit lat 60,
    field_lat_seconds := sexagesimal_digit lat 3600 }

/-- The method `GeoPos::set_lon`. -/
def GeoPos.set_lon (g : GeoPos) (lon : ℚ) : GeoPos :=
  { g with
    field_lon_degrees := float_to_int lon,
    field_lon_minutes := sexagesimal_digit lon 60,
    field_lon_seconds := sexagesimal_digit lon 3600 }

/-- The method `GeoPos::lat`. -/
def GeoPos.lat (g : GeoPos) : ℚ :=
  (g.field_lat_degrees : ℚ) + (g.field_lat_minutes : ℚ) / 60 + (g.field_lat_seconds : ℚ) / 3600

/-- The method `GeoPos::lon`. -/
def GeoPos.lon (g : GeoPos) : ℚ :=
  (g.field_lon_degrees : ℚ) + (g.field_lon_minutes : ℚ) / 60 + (g.field_lon_seconds : ℚ) / 3600

/-- Integral promotion of a `bool`. -/
def bool_to_int (b : Bool) : Int := if b then 1 else 0

/-- Conversion of an `int` to `bool`: every non-zero value is `true`. -/
def int_to_bool (z : Int) : Bool := z != 0

/-- The method `GeoPos::set_read_only`: `set_focusable(~v)`, the bitwise
complement of the promoted argument converted back to `bool`. -/
def GeoPos.set_read_only (g : GeoPos) (v : Bool) : GeoPos :=
  { g with focusable := int_to_bool (Int.not (bool_to_int v)) }

/-- A `GeoPos` with every field zero. -/
def GeoPos.zero : GeoPos :=
  { field_altitude := 0, field_lat_degrees := 0, field_lat_minutes := 0,
    field_lat_seconds := 0, field_lon_degrees := 0, field_lon_minutes := 0,
    field_lon_seconds := 0, report_change := true, focusable := true }

/-! ## GeoMap -/

/-- Modelled from the spec: the members of a `GeoMap` used by `init` and
`move` (scroll pixel position, map width and height, centre, degrees-per-pixel
ratios); `width`, `height` are the size of `screen_rect()`.  The header
`ui_geomap.hpp` is not among the sources at hand: `map_width`, `map_height`
are the unsigned 2-byte header fields of the map file, the pixel offsets
`x_pos`, `y_pos` and the centre are signed integers. -/
structure GeoMap where
  width : Int
  height : Int
  map_width : Nat
  map_height : Nat
  map_center_x : Int
  map_center_y : Int
  lon_ratio : ℚ
  lat_ratio : ℚ
  x_pos : Int
  y_pos : Int
  lon_ : ℚ
  lat_ : ℚ
deriving DecidableEq

/-- A `GeoMap` widget of the given size before `init`. -/
def GeoMap.new (width height : Int) : GeoMap :=
  { width := width, height := height, map_width := 0, map_height := 0,
    map_center_x := 0, map_center_y := 0, lon_ratio := 0, lat_ratio := 0,
    x_pos := 0, y_pos := 0, lon_ := 0, lat_ := 0 }

theorem toU32_lt (z : Int) : toU32 z < 4294967296 := by
  unfold toU32; omega

theorem toU32_of_range (z : Int) (h0 : 0 ≤ z) (h1 : z < 4294967296) : (toU32 z : Int) = z := by
  unfold toU32; omega

theorem toI32_of_lt (n : Nat) (h : n < 2147483648) : toI32 n = (n : Int) := by
  unfold toI32; split <;> omega

/-! ## Frame lemmas for the menu operations -/

theorem length_update_items_loop (o : Nat) (h : Int) (l : List MenuItemView) :
    ∀ i, (update_items_loop o h i l).length = l.length := by
  induction l with
  | nil => intro i; rfl
  | cons a t ih => intro i; simp [update_items_loop, ih]

@[simp] theorem update_items_length (s : MenuView) :
    s.update_items.menu_items_.length = s.menu_items_.length := by
  simp [MenuView.update_items, length_update_items_loop]

@[simp] theorem update_items_offset (s : MenuView) : s.update_items.offset_ = s.offset_ := rfl

@[simp] theorem update_items_highlighted (s : MenuView) :
    s.update_items.highlighted_ = s.highlighted_ := rfl

@[simp] theorem update_items_displayed_max (s : MenuView) :
    s.update_items.displayed_max_ = s.displayed_max_ := rfl

@[simp] theorem update_items_height (s : MenuView) : s.update_items.height = s.height := rfl

@[simp] theorem scroll_to_length (s : MenuView) (v : Int) :
    (s.scroll_to v).menu_items_.length = s.menu_items_.length := by
  unfold MenuView.scroll_to; split
  · simp
  · split <;> simp

@[simp] theorem scroll_to_highlighted (s : MenuView) (v : Int) :
    (s.scroll_to v).highlighted_ = s.highlighted_ := by
  unfold MenuView.scroll_to; split
  · simp
  · split <;> simp

@[simp] theorem scroll_to_displayed_max (s : MenuView) (v : Int) :
    (s.scroll_to v).displayed_max_ = s.displayed_max_ := by
  unfold MenuView.scroll_to; split
  · simp
  · split <;> simp

@[simp] theorem scroll_to_height (s : MenuView) (v : Int) :
    (s.scroll_to v).height = s.height := by
  unfold MenuView.scroll_to; split
  · simp
  · split <;> simp

/-- A write through `item_view(index)` with `index` inside the vector
succeeds and changes nothing but the items. -/
theorem set_item_highlighted_of_lt (s : MenuView) (index : Nat) (value : Bool)
    (h : index < s.menu_items_.length) :
    ∃ s', s.set_item_highlighted index value = some s' ∧
      s'.menu_items_.length = s.menu_items_.length ∧
      s'.highlighted_ = s.highlighted_ ∧ s'.offset_ = s.offset_ ∧
      s'.displayed_max_ = s.displayed_max_ ∧ s'.height = s.height ∧
      s'.more_ = s.more_ ∧ s'.keep_highlight_ = s.keep_highlight_ := by
  unfold MenuView.set_item_highlighted MenuView.item_view
  rw [List.getElem?_eq_getElem h]
  exact ⟨_, rfl, by simp, rfl, rfl, rfl, rfl, rfl, rfl⟩

/-- A write through `item_view(index)` with `index` outside the vector is the
undefined access. -/
theorem set_item_highlighted_of_ge (s : MenuView) (index : Nat) (value : Bool)
    (h : s.menu_items_.length ≤ index) :
    s.set_item_highlighted index value = none := by
  unfold MenuView.set_item_highlighted MenuView.item_view
  rw [List.getElem?_eq_none h]

/-- What `set_highlighted` does once the clamped value `c` is known to be an
index of the vector and the old `highlighted_` is one too. -/
theorem set_highlighted_core (s : MenuView) (n c : Int) (hn : 0 ≤ n)
    (hc : c = if n ≥ toI32 s.menu_items_.length then toI32 s.menu_items_.length - 1 else n)
    (hh : s.highlighted_ < s.menu_items_.length)
    (hcl : toU32 c < s.menu_items_.length) :
    ∃ s', s.set_highlighted n = some (s', true) ∧
      s'.highlighted_ = toU32 c ∧ s'.offset_ = (s.scroll_to c).offset_ ∧
      s'.displayed_max_ = s.displayed_max_ ∧
      s'.menu_items_.length = s.menu_items_.length ∧ s'.height = s.height := by
  obtain ⟨s2, e2, l2, h2, o2, d2, g2, -, -⟩ :=
    set_item_highlighted_of_lt (s.scroll_to c) (s.scroll_to c).highlighted_ false
      (by simpa using hh)
  obtain ⟨s4, e4, l4, h4, o4, d4, g4, -, -⟩ :=
    set_item_highlighted_of_lt { s2 with highlighted_ := toU32 c } (toU32 c) true
      (by simpa [l2] using hcl)
  refine ⟨s4, ?_, ?_, ?_, ?_, ?_, ?_⟩
  · unfold MenuView.set_highlighted
    simp only [if_neg (not_lt.mpr hn), ← hc, e2, e4]
  · simpa using h4
  · simpa [o2] using o4
  · simpa [d2] using d4
  · simpa [l2] using l4
  · simpa [g2] using g4

/-! ## set_highlighted -/

/-- C1: `set_highlighted(new_index)` with a valid `new_index` on a non-empty
menu with `displayed_max_ >= 1` and a valid current `highlighted_` returns
true, stores `new_index` in `highlighted_`, and leaves the window around it:
`offset_ <= new_index < offset_ + displayed_max_`.  When `new_index` lay past
the old window the new `offset_` is `new_index - displayed_max_ + 1`; when it
lay before the old window the new `offset_` is `new_index`. -/
theorem set_highlighted_keeps_window (s : MenuView) (new_index : Int)
    (hr : s.InRange) (hcount : 1 ≤ s.menu_items_.length) (hdm : 1 ≤ s.displayed_max_)
    (hh : s.highlighted_ < s.menu_items_.length)
    (h0 : 0 ≤ new_index) (h1 : new_index < (s.menu_items_.length : Int)) :
    ∃ s', s.set_highlighted new_index = some (s', true) ∧
      (s'.highlighted_ : Int) = new_index ∧
      (s'.offset_ : Int) ≤ new_index ∧
      new_index < (s'.offset_ : Int) + (s'.displayed_max_ : Int) ∧
      s'.displayed_max_ = s.displayed_max_ ∧
      s'.menu_items_.length = s.menu_items_.length ∧
      (new_index - (s.offset_ : Int) ≥ (s.displayed_max_ : Int) →
        (s'.offset_ : Int) = new_index - (s.displayed_max_ : Int) + 1) ∧
      (new_index < (s.offset_ : Int) → (s'.offset_ : Int) = new_index) := by
  obtain ⟨hd, -, ho, hl⟩ := hr
  have hcnt : toI32 s.menu_items_.length = (s.menu_items_.length : Int) := toI32_of_lt _ hl
  have hc : new_index =
      if new_index ≥ toI32 s.menu_items_.length then toI32 s.menu_items_.length - 1
      else new_index := by
    rw [if_neg]; rw [hcnt]; omega
  have hu : (toU32 new_index : Int) = new_index := toU32_of_range _ h0 (by omega)
  obtain ⟨s', e, hhl, hof, hdm', hlen, -⟩ :=
    set_highlighted_core s new_index new_index h0 hc hh (by omega)
  refine ⟨s', e, by rw [hhl, hu], ?_, ?_, hdm', hlen, ?_, ?_⟩ <;>
    rw [hof] <;> try rw [hdm']
  all_goals
    unfold MenuView.scroll_to
    split
    · rename_i hA
      obtain ⟨hA1, hA2⟩ := hA
      have e1 : (toU32 (new_index - (s.offset_ : Int)) : Int) = new_index - s.offset_ :=
        toU32_of_range _ (by omega) (by omega)
      have e2 : (toU32 (new_index - (s.displayed_max_ : Int) + 1) : Int) =
          new_index - s.displayed_max_ + 1 := toU32_of_range _ (by omega) (by omega)
      simp only [update_items_offset]
      omega
    · rename_i hA
      split
      · rename_i hB
        simp only [update_items_offset]
        omega
      · rename_i hB
        have e1 : new_index - (s.offset_ : Int) ≥ 0 := by omega
        have e2 : (toU32 (new_index - (s.offset_ : Int)) : Int) = new_index - s.offset_ :=
          toU32_of_range _ (by omega) (by omega)
        omega

/-- Scenario of C1: ten items, `displayed_max_ = 5`, `offset_ = 0`;
`set_highlighted(7)` gives `offset_ = 3`, the instance of
`set_highlighted_keeps_window` at that menu. -/
theorem set_highlighted_keeps_window_witness :
    menu10.offset_ = 0 ∧ menu10.displayed_max_ = 5 ∧ menu10.menu_items_.length = 10 ∧
    (menu10.set_highlighted 7).map (fun p => p.1.offset_) = some 3 ∧
    ∃ s', menu10.set_highlighted 7 = some (s', true) ∧
      (s'.highlighted_ : Int) = 7 ∧
      (s'.offset_ : Int) ≤ 7 ∧
      (7 : Int) < (s'.offset_ : Int) + (s'.displayed_max_ : Int) ∧
      s'.displayed_max_ = menu10.displayed_max_ ∧
      s'.menu_items_.length = menu10.menu_items_.length ∧
      ((7 : Int) - (menu10.offset_ : Int) ≥ (menu10.displayed_max_ : Int) →
        (s'.offset_ : Int) = 7 - (menu10.displayed_max_ : Int) + 1) ∧
      ((7 : Int) < (menu10.offset_ : Int) → (s'.offset_ : Int) = 7) :=
  ⟨by decide, by decide, by decide, by decide,
    set_highlighted_keeps_window menu10 7 (by decide) (by decide) (by decide) (by decide)
      (by decide) (by decide)⟩

/-- C2: on a non-empty menu with a valid current `highlighted_`, and for every
32-bit signed `new_index`, `set_highlighted(new_index)` returns false exactly
when `new_index < 0`, and then the whole state (highlight, offset, more flag,
every item) is unchanged; otherwise it returns true and `highlighted_` is
`min(new_index, count - 1)`. -/
theorem set_highlighted_fail_low_clamp_high (s : MenuView) (new_index : Int)
    (hr : s.InRange) (hcount : 1 ≤ s.menu_items_.length)
    (hh : s.highlighted_ < s.menu_items_.length)
    (hlo : -2147483648 ≤ new_index) (hhi : new_index < 2147483648) :
    ∃ s' b, s.set_highlighted new_index = some (s', b) ∧
      (b = false ↔ new_index < 0) ∧
      (new_index < 0 → s' = s) ∧
      (0 ≤ new_index →
        (s'.highlighted_ : Int) = min new_index ((s.menu_items_.length : Int) - 1)) := by
  obtain ⟨-, -, -, hl⟩ := hr
  have hcnt : toI32 s.menu_items_.length = (s.menu_items_.length : Int) := toI32_of_lt _ hl
  by_cases hneg : new_index < 0
  · refine ⟨s, false, ?_, by simp [hneg], fun _ => rfl, fun h => absurd hneg (not_lt.mpr h)⟩
    unfold MenuView.set_highlighted
    simp only [if_pos hneg]
  · have h0 : 0 ≤ new_index := not_lt.mp hneg
    have hmin : (if new_index ≥ toI32 s.menu_items_.length
        then toI32 s.menu_items_.length - 1 else new_index) =
        min new_index ((s.menu_items_.length : Int) - 1) := by
      rw [hcnt]; split <;> omega
    have hm0 : 0 ≤ min new_index ((s.menu_items_.length : Int) - 1) := by omega
    have hu : (toU32 (min new_index ((s.menu_items_.length : Int) - 1)) : Int) =
        min new_index ((s.menu_items_.length : Int) - 1) :=
      toU32_of_range _ hm0 (by omega)
    obtain ⟨s', e, hhl, -, -, -, -⟩ :=
      set_highlighted_core s new_index _ h0 hmin.symm hh (by omega)
    refine ⟨s', true, e, by simp [hneg], fun h => absurd h hneg, fun _ => ?_⟩
    rw [hhl, hu]

/-- Instances of C2 at the ten-item menu: `set_highlighted(10)` selects item 9
(and `set_highlighted(-1)` is covered by the same statement at `-1`). -/
theorem set_highlighted_fail_low_clamp_high_witness :
    (menu10.set_highlighted 10).map (fun p => (p.1.highlighted_, p.2)) = some (9, true) ∧
    menu10.set_highlighted (-1) = some (menu10, false) ∧
    ∃ s' b, menu10.set_highlighted 10 = some (s', b) ∧
      (b = false ↔ (10 : Int) < 0) ∧
      ((10 : Int) < 0 → s' = menu10) ∧
      ((0 : Int) ≤ 10 →
        (s'.highlighted_ : Int) = min 10 ((menu10.menu_items_.length : Int) - 1)) :=
  ⟨by decide, by decide,
    set_highlighted_fail_low_clamp_high menu10 10 (by decide) (by decide) (by decide)
      (by decide) (by decide)⟩

/-- With `highlighted_` outside the vector (in particular on an empty menu)
a call `set_highlighted(n)` with `n >= 0` evaluates `item_view(highlighted_)`
outside the vector. -/
theorem set_highlighted_none_of_stale (s : MenuView) (n : Int) (hn : 0 ≤ n)
    (hh : s.menu_items_.length ≤ s.highlighted_) : s.set_highlighted n = none := by
  unfold MenuView.set_highlighted
  simp only [if_neg (not_lt.mpr hn)]
  rw [set_item_highlighted_of_ge _ _ _ (by simpa using hh)]

/-! ## The data-model invariant -/

theorem strong_invariant_new (height : Int) (keep : Bool) :
    (MenuView.new height keep).StrongInvariant := by
  refine ⟨⟨toU32_lt _, by simp [MenuView.new], by simp [MenuView.new], by simp [MenuView.new]⟩,
    fun _ => rfl, fun h => absurd rfl h, ?_⟩
  show ((0 : Nat) : Int) ≤ _
  omega

theorem strong_invariant_add_item (s : MenuView) (new_item : MenuItem)
    (h : s.StrongInvariant) (hl : s.menu_items_.length + 1 < 2147483648) :
    (s.add_item new_item).StrongInvariant := by
  obtain ⟨⟨hd, hh, ho, -⟩, he, hne, hoff⟩ := h
  have hlen : (s.add_item new_item).menu_items_.length = s.menu_items_.length + 1 := by
    simp [MenuView.add_item]
  refine ⟨⟨hd, hh, ho, by rw [hlen]; exact hl⟩, ?_, ?_, ?_⟩
  · intro h0; rw [hlen] at h0; omega
  · intro _
    rw [hlen]
    show s.highlighted_ < _
    by_cases h0 : s.menu_items_.length = 0
    · rw [he h0]; omega
    · have := hne h0; omega
  · rw [hlen]
    show (s.offset_ : Int) ≤ max 0 (((s.menu_items_.length + 1 : Nat) : Int) - (s.displayed_max_ : Int))
    omega

theorem add_items_length (new_items : List MenuItem) :
    ∀ s : MenuView, (s.add_items new_items).menu_items_.length =
      s.menu_items_.length + new_items.length := by
  induction new_items with
  | nil => intro s; rfl
  | cons a t ih =>
    intro s
    show ((s.add_item a).add_items t).menu_items_.length = _
    rw [ih]; simp [MenuView.add_item]; omega

theorem strong_invariant_add_items (new_items : List MenuItem) :
    ∀ s : MenuView, s.StrongInvariant →
      s.menu_items_.length + new_items.length < 2147483648 →
      (s.add_items new_items).StrongInvariant := by
  induction new_items with
  | nil => intro s h _; exact h
  | cons a t ih =>
    intro s h hl
    have hl1 : s.menu_items_.length + 1 < 2147483648 := by
      simp only [List.length_cons] at hl; omega
    show ((s.add_item a).add_items t).StrongInvariant
    apply ih _ (strong_invariant_add_item s a h hl1)
    have : (s.add_item a).menu_items_.length = s.menu_items_.length + 1 := by
      simp [MenuView.add_item]
    rw [this]; simp only [List.length_cons] at hl; omega

theorem strong_invariant_set_highlighted (s : MenuView) (n : Int) (s' : MenuView) (b : Bool)
    (h : s.StrongInvariant) (hhi : n < 2147483648)
    (e : s.set_highlighted n = some (s', b)) : s'.StrongInvariant := by
  by_cases hneg : n < 0
  · unfold MenuView.set_highlighted at e
    simp only [if_pos hneg, Option.some.injEq, Prod.mk.injEq] at e
    rw [← e.1]; exact h
  · have h0 : 0 ≤ n := not_lt.mp hneg
    obtain ⟨⟨hd, hh, ho, hl⟩, he, hne, hoff⟩ := h
    by_cases hz : s.menu_items_.length = 0
    · rw [set_highlighted_none_of_stale s n h0 (by omega)] at e
      exact absurd e (by simp)
    · have hv := hne hz
      have hcnt : toI32 s.menu_items_.length = (s.menu_items_.length : Int) := toI32_of_lt _ hl
      have hmin : (if n ≥ toI32 s.menu_items_.length
          then toI32 s.menu_items_.length - 1 else n) =
          min n ((s.menu_items_.length : Int) - 1) := by
        rw [hcnt]; split <;> omega
      have hu : (toU32 (min n ((s.menu_items_.length : Int) - 1)) : Int) =
          min n ((s.menu_items_.length : Int) - 1) :=
        toU32_of_range _ (by omega) (by omega)
      obtain ⟨t, et, hhl, hof, hdm, hlen, -⟩ :=
        set_highlighted_core s n _ h0 hmin.symm hv (by omega)
      rw [et] at e
      simp only [Option.some.injEq, Prod.mk.injEq] at e
      rw [← e.1]
      have hofb : (t.offset_ : Int) ≤ max 0 ((s.menu_items_.length : Int) - (s.displayed_max_ : Int)) ∧
          t.offset_ < 4294967296 := by
        rw [hof]
        unfold MenuView.scroll_to
        split
        · rename_i hA
          obtain ⟨hA1, hA2⟩ := hA
          have e1 : (toU32 (min n ((s.menu_items_.length : Int) - 1) - (s.offset_ : Int)) : Int) =
              min n ((s.menu_items_.length : Int) - 1) - s.offset_ :=
            toU32_of_range _ (by omega) (by omega)
          have e2 : (toU32 (min n ((s.menu_items_.length : Int) - 1) -
              (s.displayed_max_ : Int) + 1) : Int) =
              min n ((s.menu_items_.length : Int) - 1) - s.displayed_max_ + 1 :=
            toU32_of_range _ (by omega) (by omega)
          simp only [update_items_offset]
          omega
        · split
          · simp only [update_items_offset]
            omega
          · omega
      refine ⟨⟨by rw [hdm]; exact hd, by rw [hhl]; exact toU32_lt _, hofb.2,
        by rw [hlen]; exact hl⟩, ?_, ?_, ?_⟩
      · intro h0'; rw [hlen] at h0'; exact absurd h0' hz
      · intro _; rw [hlen, hhl]; omega
      · rw [hlen, hdm]; exact hofb.1

theorem strong_invariant_of_reachable (s : MenuView)
    (h : MenuView.ReachableWithoutClear s) : s.StrongInvariant := by
  induction h with
  | new height keep => exact strong_invariant_new height keep
  | add_item s item _ hl ih => exact strong_invariant_add_item s item ih hl
  | add_items s items _ hl ih => exact strong_invariant_add_items items s ih hl
  | set_highlighted s n s' b _ _ hhi e ih =>
    exact strong_invariant_set_highlighted s n s' b ih hhi e

/-- As long as `clear` is not called and every call returns, the invariant
holds: in every state reached from a freshly constructed `MenuView` by
returning calls of `add_item`, `add_items` and `set_highlighted(n)`, a
non-empty item sequence has a valid `highlighted_`, and
`offset_ <= max(0, count - displayed_max_)`. -/
theorem invariant_of_returning_calls_without_clear (s : MenuView)
    (h : MenuView.ReachableWithoutClear s) : s.Invariant := by
  obtain ⟨-, -, hne, hoff⟩ := strong_invariant_of_reachable s h
  refine ⟨fun hn => hne ?_, hoff⟩
  intro h0
  exact hn (List.length_eq_zero.mp h0)

/-- C3 fails on the code.  A fresh menu of height 120
(`displayed_max_ = 5`), ten items added and `set_highlighted(7)` give a state
that satisfies the invariant (`offset_ = 3`, `highlighted_ = 7`); `clear()`
then leaves an empty sequence with `offset_ = 3 > max(0, 0 - 5)`, and one
more `add_item` leaves one item with `highlighted_ = 7`.  Also, on the fresh
empty menu `set_highlighted(0)` clamps to `-1` and its scroll step writes
`offset_ = 2^32 - 5` before `item_view(0)` is evaluated. -/
theorem invariant_fails_after_clear :
    menu10 = (MenuView.new 120 false).add_items ten_items ∧
    menu10.set_highlighted 7 = some (menu10_at7, true) ∧
    menu10_at7.Invariant ∧
    menu10_at7.clear.menu_items_ = [] ∧ menu10_at7.clear.offset_ = 3 ∧
    menu10_at7.clear.displayed_max_ = 5 ∧
    ¬ menu10_at7.clear.Invariant ∧
    (menu10_at7.clear.add_item { text := "a", color := 0 }).menu_items_.length = 1 ∧
    (menu10_at7.clear.add_item { text := "a", color := 0 }).highlighted_ = 7 ∧
    ¬ (menu10_at7.clear.add_item { text := "a", color := 0 }).Invariant ∧
    ((MenuView.new 120 false).scroll_to (-1)).offset_ = 4294967291 ∧
    ¬ ((MenuView.new 120 false).scroll_to (-1)).Invariant := by
  refine ⟨rfl, by decide, by decide, by decide, by decide, by decide, by decide, by decide,
    by decide, by decide, by decide, by decide⟩

/-! ## clear and add_item -/

/-- C4 fails on the code: after ten items, `displayed_max_ = 5` and
`set_highlighted(7)` (`offset_ = 3`, `highlighted_ = 7`), `clear()` empties
the sequence and leaves `offset_ = 3` and `highlighted_ = 7`. -/
theorem clear_keeps_offset_and_highlight_example :
    menu10.set_highlighted 7 = some (menu10_at7, true) ∧
    menu10_at7.offset_ = 3 ∧ menu10_at7.highlighted_ = 7 ∧
    menu10_at7.clear.menu_items_ = [] ∧
    menu10_at7.clear.offset_ = 3 ∧ menu10_at7.clear.highlighted_ = 7 ∧
    ¬ (menu10_at7.clear.offset_ = 0 ∧ menu10_at7.clear.highlighted_ = 0) := by
  decide

/-- What `clear()` writes, for every state: the sequence becomes empty and
`more_` false; `offset_`, `highlighted_` and `displayed_max_` are not
assigned. -/
theorem clear_writes (s : MenuView) :
    s.clear.menu_items_ = [] ∧ s.clear.more_ = false ∧
    s.clear.offset_ = s.offset_ ∧ s.clear.highlighted_ = s.highlighted_ ∧
    s.clear.displayed_max_ = s.displayed_max_ := by
  refine ⟨rfl, ?_, rfl, rfl, rfl⟩
  simp [MenuView.clear, MenuView.update_items]

/-- C5 fails on the code for a menu emptied by `clear()` after earlier use:
after ten items, `set_highlighted(7)` and `clear()` the sequence is empty,
and `add_item` then gives one item with `highlighted_ = 7`; the row is laid
out at `y_pos = (0 - 3) * 24 = -72` and hidden. -/
theorem add_item_after_clear_stale_highlight :
    menu10.set_highlighted 7 = some (menu10_at7, true) ∧
    menu10_at7.clear.menu_items_ = [] ∧
    (menu10_at7.clear.add_item { text := "a", color := 0 }).menu_items_.length = 1 ∧
    (menu10_at7.clear.add_item { text := "a", color := 0 }).highlighted_ = 7 ∧
    (menu10_at7.clear.add_item { text := "a", color := 0 }).highlighted_ ≠ 0 ∧
    (menu10_at7.clear.add_item { text := "a", color := 0 }).menu_items_.map
      (fun v => (v.y_pos, v.hidden_)) = [(-72, true)] := by
  decide

/-- On a freshly constructed menu `add_item` gives one item,
`highlighted_ == 0`, and `more_` equal to `count > displayed_max_`. -/
theorem add_item_on_fresh_menu (height : Int) (keep_highlight : Bool) (new_item : MenuItem) :
    ((MenuView.new height keep_highlight).add_item new_item).menu_items_.length = 1 ∧
    ((MenuView.new height keep_highlight).add_item new_item).highlighted_ = 0 ∧
    (((MenuView.new height keep_highlight).add_item new_item).more_ = true ↔
      ((MenuView.new height keep_highlight).add_item new_item).menu_items_.length >
        ((MenuView.new height keep_highlight).add_item new_item).displayed_max_) := by
  have hlen : ((MenuView.new height keep_highlight).add_item new_item).menu_items_.length = 1 := by
    simp [MenuView.add_item, MenuView.new]
  refine ⟨hlen, rfl, ?_⟩
  rw [hlen]
  have hd := toU32_lt (Int.tdiv height 24)
  have hu : toU32 ((toU32 (Int.tdiv height 24) : Nat) : Int) = toU32 (Int.tdiv height 24) := by
    generalize toU32 (Int.tdiv height 24) = d at hd
    unfold toU32; omega
  simp [MenuView.add_item, MenuView.update_items, MenuView.new, hu]

/-! ## Accesses outside the item vector -/

/-- C9 fails on the code: on a freshly constructed (empty) menu,
`set_highlighted(0)`, `on_focus()`, `on_key(Down)`, `on_key(Select)` and
`on_encoder(1)` each evaluate `item_view(0)` on a vector of size 0; and after
ten items, `set_highlighted(7)`, `clear()` and one `add_item`, `on_focus()`
and `set_highlighted(0)` evaluate `item_view(7)` on a vector of size 1. -/
theorem menu_input_indexes_outside_vector :
    (MenuView.new 120 false).menu_items_.length = 0 ∧
    (MenuView.new 120 false).set_highlighted 0 = none ∧
    (MenuView.new 120 false).on_focus = none ∧
    (MenuView.new 120 false).on_key KeyEvent.Down = none ∧
    (MenuView.new 120 false).on_key KeyEvent.Select = none ∧
    (MenuView.new 120 false).on_encoder 1 = none ∧
    (menu10_at7.clear.add_item { text := "a", color := 0 }).item_view 7 = none ∧
    (menu10_at7.clear.add_item { text := "a", color := 0 }).on_focus = none ∧
    (menu10_at7.clear.add_item { text := "a", color := 0 }).set_highlighted 0 = none := by
  decide

theorem toI32_range (n : Nat) : -2147483648 ≤ toI32 n ∧ toI32 n < 2147483648 := by
  unfold toI32; split <;> omega

/-- On a non-empty menu with a valid `highlighted_`, `set_highlighted(n)`
returns for every `n`, and the state it returns has the same item count and a
valid `highlighted_`. -/
theorem set_highlighted_returns (s : MenuView) (n : Int) (hr : s.InRange)
    (hh : s.highlighted_ < s.menu_items_.length) (hhi : n < 2147483648) :
    ∃ s' b, s.set_highlighted n = some (s', b) ∧
      s'.menu_items_.length = s.menu_items_.length ∧
      s'.highlighted_ < s'.menu_items_.length := by
  by_cases hneg : n < 0
  · refine ⟨s, false, ?_, rfl, hh⟩
    unfold MenuView.set_highlighted
    simp only [if_pos hneg]
  · have h0 : 0 ≤ n := not_lt.mp hneg
    obtain ⟨-, -, -, hl⟩ := hr
    have hcnt : toI32 s.menu_items_.length = (s.menu_items_.length : Int) := toI32_of_lt _ hl
    have hmin : (if n ≥ toI32 s.menu_items_.length
        then toI32 s.menu_items_.length - 1 else n) =
        min n ((s.menu_items_.length : Int) - 1) := by
      rw [hcnt]; split <;> omega
    have hu : (toU32 (min n ((s.menu_items_.length : Int) - 1)) : Int) =
        min n ((s.menu_items_.length : Int) - 1) :=
      toU32_of_range _ (by omega) (by omega)
    obtain ⟨t, et, hhl, -, -, hlen, -⟩ :=
      set_highlighted_core s n _ h0 hmin.symm hh (by omega)
    exact ⟨t, true, et, hlen, by rw [hlen, hhl]; omega⟩

/-- On a non-empty menu with a valid `highlighted_` every input handler
returns: no `item_view(i)` with `i` outside the vector is evaluated by
`set_highlighted`, `on_focus`, `on_blur`, `on_key` or `on_encoder`. -/
theorem menu_inputs_return_of_valid (s : MenuView) (hr : s.InRange)
    (hh : s.highlighted_ < s.menu_items_.length) :
    (∀ n : Int, n < 2147483648 → (s.set_highlighted n).isSome = true) ∧
    s.on_focus.isSome = true ∧ s.on_blur.isSome = true ∧
    (∀ key : KeyEvent, (s.on_key key).isSome = true) ∧
    (∀ event : Int, (s.on_encoder event).isSome = true) := by
  have hset : ∀ n : Int, n < 2147483648 → (s.set_highlighted n).isSome = true := by
    intro n hn
    obtain ⟨s', b, e, -, -⟩ := set_highlighted_returns s n hr hh hn
    rw [e]; rfl
  have hitem : ∀ value, (s.set_item_highlighted s.highlighted value).isSome = true := by
    intro value
    obtain ⟨s', e, -⟩ := set_item_highlighted_of_lt s s.highlighted_ value hh
    show (s.set_item_highlighted s.highlighted_ value).isSome = true
    rw [e]; rfl
  refine ⟨hset, hitem true, ?_, ?_, ?_⟩
  · unfold MenuView.on_blur
    split
    · exact hitem false
    · rfl
  · intro key
    cases key with
    | Up => exact hset _ (toI32_range _).2
    | Down => exact hset _ (toI32_range _).2
    | Select =>
      show (match s.item_view s.highlighted with
        | none => none
        | some _ => some (s, true)).isSome = true
      unfold MenuView.item_view MenuView.highlighted
      rw [List.getElem?_eq_getElem hh]; rfl
    | Right =>
      show (match s.item_view s.highlighted with
        | none => none
        | some _ => some (s, true)).isSome = true
      unfold MenuView.item_view MenuView.highlighted
      rw [List.getElem?_eq_getElem hh]; rfl
    | Left => rfl
    | Other code => rfl
  · intro event
    obtain ⟨s', b, e, -, -⟩ :=
      set_highlighted_returns s (toI32 (toU32 ((s.highlighted : Int) + event))) hr hh
        (toI32_range _).2
    unfold MenuView.on_encoder
    rw [e]; rfl

/-! ## Layout of the visible window -/

theorem getElem?_update_items_loop (o : Nat) (h : Int) (l : List MenuItemView) :
    ∀ i k, (update_items_loop o h i l)[k]? =
      (l[k]?).map (fun item : MenuItemView =>
        { item with
          y_pos := to_coord (row_y_pos o (i + k)),
          hidden_ := decide (row_y_pos o (i + k) < 0) ||
            decide (row_y_pos o (i + k) > last_row_y h) }) := by
  induction l with
  | nil => intro i k; simp [update_items_loop]
  | cons a t ih =>
    intro i k
    cases k with
    | zero => simp [update_items_loop]
    | succ k =>
      simp only [update_items_loop, List.getElem?_cons_succ]
      rw [ih (i + 1) k]
      have : i + 1 + k = i + (k + 1) := by omega
      rw [this]

/-- The row at index `i` after `update_items`. -/
theorem getElem?_update_items (s : MenuView) (i : Nat) :
    s.update_items.menu_items_[i]? =
      (s.menu_items_[i]?).map (fun item : MenuItemView =>
        { item with
          y_pos := to_coord (row_y_pos s.offset_ i),
          hidden_ := decide (row_y_pos s.offset_ i < 0) ||
            decide (row_y_pos s.offset_ i > last_row_y s.height) }) := by
  have e : s.update_items.menu_items_ = update_items_loop s.offset_ s.height 0 s.menu_items_ :=
    rfl
  rw [e, getElem?_update_items_loop, Nat.zero_add]

theorem last_row_y_eq (height : Int) (h0 : 0 ≤ height) (h1 : height ≤ 32767) :
    last_row_y height = height - 24 := by
  unfold last_row_y toI16 toU32 item_height
  split <;> omega

theorem to_coord_of_range (z : Int) (h0 : -32768 ≤ z) (h1 : z ≤ 32767) : to_coord z = z := by
  unfold to_coord toI16 toU32
  split <;> omega

theorem toU32_shift (z k : Int) (h0 : 0 ≤ z + k * 4294967296)
    (h1 : z + k * 4294967296 < 4294967296) : (toU32 z : Int) = z + k * 4294967296 := by
  unfold toU32; omega

/-- Without wrap-around `row_y_pos` is the signed product
`(i - offset_) * 24`. -/
theorem row_y_pos_eq (o i : Nat) (hi : 24 * i < 2147483648) (ho : 24 * o < 2147483648) :
    row_y_pos o i = ((i : Int) - (o : Int)) * 24 := by
  have h24 : ((item_height : Nat) : Int) = 24 := rfl
  unfold row_y_pos
  rw [h24]
  rcases Nat.lt_or_ge i o with h | h
  · have e1 := toU32_shift ((i : Int) - (o : Int)) 1 (by omega) (by omega)
    rw [e1]
    have e2 := toU32_shift ((((i : Int) - (o : Int)) + 1 * 4294967296) * 24) (-23)
      (by omega) (by omega)
    unfold toI32
    split <;> omega
  · have e1 := toU32_shift ((i : Int) - (o : Int)) 0 (by omega) (by omega)
    rw [e1]
    have e2 := toU32_shift ((((i : Int) - (o : Int)) + 0 * 4294967296) * 24) 0
      (by omega) (by omega)
    unfold toI32
    split <;> omega

/-- The reason for the bound `24 * count < 2^31` below: in the state
`huge_menu` the product of row 178956971 is `178956971 * 24 = 2^32 + 8`, and
the row is left visible outside the window. -/
theorem huge_menu_row :
    huge_menu.update_items.menu_items_[178956971]? =
      some { MenuItemView.new { text := "", color := 0 } false with
        y_pos := 8, hidden_ := false } := by
  have hy : row_y_pos 0 178956971 = 8 := by decide
  have hl : last_row_y 320 = 296 := by decide
  have hc : to_coord 8 = 8 := by decide
  have e : huge_menu.menu_items_ =
      List.replicate 178956972 (MenuItemView.new { text := "", color := 0 } false) := rfl
  have eo : huge_menu.offset_ = 0 := rfl
  have eh : huge_menu.height = 320 := rfl
  rw [getElem?_update_items, e, eo, eh, List.getElem?_replicate, if_pos (by omega), hy, hl, hc]
  rfl

theorem add_items_frame (new_items : List MenuItem) :
    ∀ s : MenuView, (s.add_items new_items).offset_ = s.offset_ ∧
      (s.add_items new_items).height = s.height ∧
      (s.add_items new_items).displayed_max_ = s.displayed_max_ := by
  induction new_items with
  | nil => intro s; exact ⟨rfl, rfl, rfl⟩
  | cons a t ih =>
    intro s
    show ((s.add_item a).add_items t).offset_ = _ ∧ ((s.add_item a).add_items t).height = _ ∧
      ((s.add_item a).add_items t).displayed_max_ = _
    obtain ⟨h1, h2, h3⟩ := ih (s.add_item a)
    exact ⟨h1, h2, h3⟩

/-- C10, as stated, fails: on a fresh menu with a 320-pixel viewport to which
1367 items were added (`offset_ = 0`), `update_items` computes for the row at
index 1366 the 32-bit value `1366 * 24 = 32784`, and the rectangle of the row
keeps it narrowed to the 16-bit `Coord`, `-32752`; the vertical position of
the item is not `(i - offset_) * 24`. -/
theorem layout_position_narrowed_on_long_menu :
    long_menu.menu_items_.length = 1367 ∧ long_menu.offset_ = 0 ∧
    long_menu.height = 320 ∧ long_menu.displayed_max_ = 13 ∧
    toI32 (toU32 ((toU32 ((1366 : Int) - (0 : Int)) : Int) * 24)) = 32784 ∧
    ∃ w, long_menu.update_items.menu_items_[1366]? = some w ∧
      w.y_pos = -32752 ∧ w.hidden_ = true ∧
      w.y_pos ≠ toI32 (toU32 ((toU32 ((1366 : Int) - (0 : Int)) : Int) * 24)) := by
  have hlen : long_menu.menu_items_.length = 1367 := by
    unfold long_menu
    rw [add_items_length, List.length_replicate]
    rfl
  obtain ⟨ho, hh, hd⟩ := add_items_frame (List.replicate 1367 { text := "", color := 0 })
    (MenuView.new 320 false)
  have ho' : long_menu.offset_ = 0 := ho
  have hh' : long_menu.height = 320 := hh
  have hd' : long_menu.displayed_max_ = 13 := by
    have : long_menu.displayed_max_ = (MenuView.new 320 false).displayed_max_ := hd
    rw [this]; decide
  have hy : row_y_pos 0 1366 = 32784 := by decide
  have hl : last_row_y 320 = 296 := by decide
  have hc : to_coord 32784 = -32752 := by decide
  have hv : toI32 (toU32 ((toU32 ((1366 : Int) - (0 : Int)) : Int) * 24)) = 32784 := by decide
  refine ⟨hlen, ho', hh', hd', hv, ?_⟩
  have hi : 1366 < long_menu.menu_items_.length := by rw [hlen]; omega
  refine ⟨{ long_menu.menu_items_[1366] with y_pos := -32752, hidden_ := true }, ?_, rfl, rfl, ?_⟩
  · rw [getElem?_update_items, List.getElem?_eq_getElem hi, ho', hh', hy, hl, hc]
    rfl
  · show (-32752 : Int) ≠ _
    rw [hv]; decide

/-- C10, amended: with row height 24, viewport height `H` (a non-negative
16-bit height) and `displayed_max_ = floor(H / 24)`, `update_items` removes no
item, computes for every item at index `i` the value `(i - offset_) * 24` in
32-bit wrap-around arithmetic read as signed, stores it as the vertical
position narrowed to the 16-bit `Coord`, and marks the item hidden exactly
when the 32-bit value is `< 0` or `> H - 24`; the stored position is the
integer `(i - offset_) * 24` whenever that integer fits 16 bits; and for
every item count with `24 * count < 2^31` and every `offset_ <= count`, the
items left visible are exactly those with
`offset_ <= i < offset_ + displayed_max_`, each at position
`(i - offset_) * 24`. -/
theorem update_items_layout (s : MenuView)
    (hH0 : 0 ≤ s.height) (hH1 : s.height ≤ 32767)
    (hd : (s.displayed_max_ : Int) = s.height / 24) :
    s.update_items.menu_items_.length = s.menu_items_.length ∧
    (∀ (i : Nat) (v : MenuItemView), s.menu_items_[i]? = some v →
      ∃ w, s.update_items.menu_items_[i]? = some w ∧
        w.item = v.item ∧ w.highlighted_ = v.highlighted_ ∧
        w.y_pos = to_coord (toI32 (toU32 ((toU32 ((i : Int) - (s.offset_ : Int)) : Int) * 24))) ∧
        (w.hidden_ = true ↔
          (toI32 (toU32 ((toU32 ((i : Int) - (s.offset_ : Int)) : Int) * 24)) < 0 ∨
           toI32 (toU32 ((toU32 ((i : Int) - (s.offset_ : Int)) : Int) * 24)) >
             s.height - 24))) ∧
    (24 * s.menu_items_.length < 2147483648 → s.offset_ ≤ s.menu_items_.length →
      ∀ (i : Nat) (w : MenuItemView), s.update_items.menu_items_[i]? = some w →
        (w.hidden_ = false ↔ (s.offset_ ≤ i ∧ i < s.offset_ + s.displayed_max_)) ∧
        (w.hidden_ = false → w.y_pos = ((i : Int) - (s.offset_ : Int)) * 24) ∧
        (-32768 ≤ ((i : Int) - (s.offset_ : Int)) * 24 →
          ((i : Int) - (s.offset_ : Int)) * 24 ≤ 32767 →
          w.y_pos = ((i : Int) - (s.offset_ : Int)) * 24)) := by
  have hlast := last_row_y_eq s.height hH0 hH1
  refine ⟨update_items_length s, ?_, ?_⟩
  · intro i v hv
    refine ⟨{ v with
        y_pos := to_coord (row_y_pos s.offset_ i),
        hidden_ := decide (row_y_pos s.offset_ i < 0) ||
          decide (row_y_pos s.offset_ i > last_row_y s.height) }, ?_, rfl, rfl, rfl, ?_⟩
    · rw [getElem?_update_items, hv]; rfl
    · show (decide (row_y_pos s.offset_ i < 0) ||
          decide (row_y_pos s.offset_ i > last_row_y s.height)) = true ↔
        (row_y_pos s.offset_ i < 0 ∨ row_y_pos s.offset_ i > s.height - 24)
      simp only [hlast, Bool.or_eq_true, decide_eq_true_eq]
  · intro hc ho i w hw
    rw [getElem?_update_items] at hw
    cases hv : s.menu_items_[i]? with
    | none => rw [hv] at hw; simp at hw
    | some v =>
      rw [hv] at hw
      simp only [Option.map_some', Option.some.injEq] at hw
      have hi : i < s.menu_items_.length := by
        rcases Nat.lt_or_ge i s.menu_items_.length with h | h
        · exact h
        · rw [List.getElem?_eq_none h] at hv; exact absurd hv (by simp)
      have hy := row_y_pos_eq s.offset_ i (by omega) (by omega)
      rw [← hw]
      simp only [hy, hlast]
      have h24 : s.height / 24 * 24 ≤ s.height ∧ s.height < s.height / 24 * 24 + 24 := by
        omega
      have hvis : ((decide (((i : Int) - (s.offset_ : Int)) * 24 < 0) ||
          decide (((i : Int) - (s.offset_ : Int)) * 24 > s.height - 24)) = false ↔
          (s.offset_ ≤ i ∧ i < s.offset_ + s.displayed_max_)) := by
        simp only [Bool.or_eq_false_iff, decide_eq_false_iff_not, not_lt]
        constructor
        · rintro ⟨h1, h2⟩
          constructor <;> omega
        · rintro ⟨h1, h2⟩
          constructor <;> omega
      refine ⟨hvis, ?_, ?_⟩
      · intro hf
        obtain ⟨h1, h2⟩ := hvis.mp hf
        exact to_coord_of_range _ (by omega) (by omega)
      · intro h1 h2
        exact to_coord_of_range _ h1 h2

/-- The amended C10 at the ten-item menu scrolled to `offset_ = 3`: the rows
3 to 7 are the visible ones, at positions 0, 24, 48, 72, 96. -/
theorem update_items_layout_witness :
    24 * menu10_at7.menu_items_.length < 2147483648 ∧
    menu10_at7.offset_ ≤ menu10_at7.menu_items_.length ∧
    menu10_at7.update_items.menu_items_.map (fun v => (v.y_pos, v.hidden_)) =
      [(-72, true), (-48, true), (-24, true), (0, false), (24, false), (48, false),
        (72, false), (96, false), (120, true), (144, true)] ∧
    (menu10_at7.update_items.menu_items_.length = menu10_at7.menu_items_.length ∧
    (∀ (i : Nat) (v : MenuItemView), menu10_at7.menu_items_[i]? = some v →
      ∃ w, menu10_at7.update_items.menu_items_[i]? = some w ∧
        w.item = v.item ∧ w.highlighted_ = v.highlighted_ ∧
        w.y_pos =
          to_coord (toI32 (toU32 ((toU32 ((i : Int) - (menu10_at7.offset_ : Int)) : Int) * 24))) ∧
        (w.hidden_ = true ↔
          (toI32 (toU32 ((toU32 ((i : Int) - (menu10_at7.offset_ : Int)) : Int) * 24)) < 0 ∨
           toI32 (toU32 ((toU32 ((i : Int) - (menu10_at7.offset_ : Int)) : Int) * 24)) >
             menu10_at7.height - 24))) ∧
    (24 * menu10_at7.menu_items_.length < 2147483648 →
      menu10_at7.offset_ ≤ menu10_at7.menu_items_.length →
      ∀ (i : Nat) (w : MenuItemView), menu10_at7.update_items.menu_items_[i]? = some w →
        (w.hidden_ = false ↔
          (menu10_at7.offset_ ≤ i ∧ i < menu10_at7.offset_ + menu10_at7.displayed_max_)) ∧
        (w.hidden_ = false → w.y_pos = ((i : Int) - (menu10_at7.offset_ : Int)) * 24) ∧
        (-32768 ≤ ((i : Int) - (menu10_at7.offset_ : Int)) * 24 →
          ((i : Int) - (menu10_at7.offset_ : Int)) * 24 ≤ 32767 →
          w.y_pos = ((i : Int) - (menu10_at7.offset_ : Int)) * 24))) :=
  ⟨by decide, by decide, by decide,
    update_items_layout menu10_at7 (by decide) (by decide) (by decide)⟩

/-! ## GeoPos -/

theorem float_to_int_of_nonneg (q : ℚ) (z : Int) (h0 : 0 ≤ q) (h1 : (z : ℚ) ≤ q)
    (h2 : q < (z : ℚ) + 1) : float_to_int q = z := by
  unfold float_to_int
  rw [if_pos h0]
  exact Int.floor_eq_iff.mpr ⟨h1, h2⟩

theorem float_to_int_of_neg (q : ℚ) (z : Int) (h0 : q < 0) (h1 : (z : ℚ) - 1 < q)
    (h2 : q ≤ (z : ℚ)) : float_to_int q = z := by
  unfold float_to_int
  rw [if_neg (not_le.mpr h0)]
  exact Int.ceil_eq_iff.mpr ⟨h1, h2⟩

/-- Evaluation of a minutes / seconds digit from the truncated magnitude. -/
theorem sexagesimal_digit_eval (value unit : ℚ) (n : Int) (a : ℚ)
    (ha : |value / (1 / unit)| = a) (h0 : 0 ≤ a) (h1 : (n : ℚ) ≤ a) (h2 : a < (n : ℚ) + 1)
    (hn0 : 0 ≤ n) (hn1 : n < 4294967296) :
    sexagesimal_digit value unit = n % 60 := by
  unfold sexagesimal_digit
  rw [ha, float_to_int_of_nonneg a n h0 h1 h2]
  have := toU32_of_range n hn0 hn1
  omega

/-- The three digits written for a non-negative value `x` recompose to
`floor(3600 x) / 3600`. -/
theorem recompose_nonneg (x : ℚ) (h0 : 0 ≤ x) (h1 : x ≤ 180) :
    |((float_to_int x : ℚ) + (sexagesimal_digit x 60 : ℚ) / 60 +
      (sexagesimal_digit x 3600 : ℚ) / 3600) - x| ≤ 1 / 3600 := by
  have hd : float_to_int x = ⌊x⌋ := by unfold float_to_int; rw [if_pos h0]
  have a60 : |x / (1 / 60)| = 60 * x := by
    rw [abs_of_nonneg (by positivity)]; ring
  have a3600 : |x / (1 / 3600)| = 3600 * x := by
    rw [abs_of_nonneg (by positivity)]; ring
  have d1 : (⌊x⌋ : ℚ) ≤ x := Int.floor_le x
  have d2 : x < (⌊x⌋ : ℚ) + 1 := Int.lt_floor_add_one x
  have m1 : (⌊60 * x⌋ : ℚ) ≤ 60 * x := Int.floor_le _
  have m2 : 60 * x < (⌊60 * x⌋ : ℚ) + 1 := Int.lt_floor_add_one _
  have n1 : (⌊3600 * x⌋ : ℚ) ≤ 3600 * x := Int.floor_le _
  have n2 : 3600 * x < (⌊3600 * x⌋ : ℚ) + 1 := Int.lt_floor_add_one _
  have i0 : 0 ≤ ⌊x⌋ := Int.floor_nonneg.mpr h0
  have i1 : 60 * ⌊x⌋ ≤ ⌊60 * x⌋ := by
    apply Int.le_floor.mpr; push_cast; linarith
  have i2 : ⌊60 * x⌋ < 60 * ⌊x⌋ + 60 := by
    have : (⌊60 * x⌋ : ℚ) < ((60 * ⌊x⌋ + 60 : Int) : ℚ) := by push_cast; linarith
    exact_mod_cast this
  have i3 : 60 * ⌊60 * x⌋ ≤ ⌊3600 * x⌋ := by
    apply Int.le_floor.mpr; push_cast; linarith
  have i4 : ⌊3600 * x⌋ < 60 * ⌊60 * x⌋ + 60 := by
    have : (⌊3600 * x⌋ : ℚ) < ((60 * ⌊60 * x⌋ + 60 : Int) : ℚ) := by push_cast; linarith
    exact_mod_cast this
  have i5 : ⌊3600 * x⌋ < 4294967296 := by
    have : (⌊3600 * x⌋ : ℚ) < ((4294967296 : Int) : ℚ) := by push_cast; linarith
    exact_mod_cast this
  have em : sexagesimal_digit x 60 = ⌊60 * x⌋ - 60 * ⌊x⌋ := by
    rw [sexagesimal_digit_eval x 60 ⌊60 * x⌋ (60 * x) a60 (by positivity) m1 m2 (by omega)
      (by omega)]
    omega
  have es : sexagesimal_digit x 3600 = ⌊3600 * x⌋ - 60 * ⌊60 * x⌋ := by
    rw [sexagesimal_digit_eval x 3600 ⌊3600 * x⌋ (3600 * x) a3600 (by positivity) n1 n2
      (by omega) i5]
    omega
  rw [hd, em, es]
  push_cast
  rw [abs_le]
  constructor <;> linarith

/-- For a non-negative latitude within the field range `set_lat` followed by
`lat()` is within one second of arc. -/
theorem set_lat_lat_nonneg (g : GeoPos) (x : ℚ) (h0 : 0 ≤ x) (h1 : x ≤ 90) :
    |(g.set_lat x).lat - x| ≤ 1 / 3600 :=
  recompose_nonneg x h0 (by linarith)

/-- For a non-negative longitude within the field range `set_lon` followed by
`lon()` is within one second of arc. -/
theorem set_lon_lon_nonneg (g : GeoPos) (x : ℚ) (h0 : 0 ≤ x) (h1 : x ≤ 180) :
    |(g.set_lon x).lon - x| ≤ 1 / 3600 :=
  recompose_nonneg x h0 h1

/-- C6 fails on the code for negative values: `set_lat(-33.865)` writes the
fields `-33`, `51`, `54`, and `lat()` recomposes them as
`-33 + 51/60 + 54/3600 = -32.135`, which is 1.73 away from `-33.865`;
likewise `set_lon(-122.333)` writes `-122`, `19`, `58` and `lon()` returns
`-121.667...`. -/
theorem set_lat_negative_round_trip_off :
    (GeoPos.zero.set_lat (-33865 / 1000)).field_lat_degrees = -33 ∧
    (GeoPos.zero.set_lat (-33865 / 1000)).field_lat_minutes = 51 ∧
    (GeoPos.zero.set_lat (-33865 / 1000)).field_lat_seconds = 54 ∧
    (GeoPos.zero.set_lat (-33865 / 1000)).lat = -32135 / 1000 ∧
    ¬ |(GeoPos.zero.set_lat (-33865 / 1000)).lat - (-33865 / 1000)| ≤ 1 / 3600 ∧
    (GeoPos.zero.set_lon (-122333 / 1000)).field_lon_degrees = -122 ∧
    (GeoPos.zero.set_lon (-122333 / 1000)).field_lon_minutes = 19 ∧
    (GeoPos.zero.set_lon (-122333 / 1000)).field_lon_seconds = 58 ∧
    ¬ |(GeoPos.zero.set_lon (-122333 / 1000)).lon - (-122333 / 1000)| ≤ 1 / 3600 := by
  have d1 : float_to_int (-33865 / 1000) = -33 :=
    float_to_int_of_neg _ _ (by norm_num) (by norm_num) (by norm_num)
  have m1 : sexagesimal_digit (-33865 / 1000) 60 = 51 := by
    rw [sexagesimal_digit_eval (-33865 / 1000) 60 2031 (20319 / 10)
      (by norm_num [abs_of_neg]) (by norm_num) (by norm_num) (by norm_num) (by norm_num)
      (by norm_num)]
    rfl
  have s1 : sexagesimal_digit (-33865 / 1000) 3600 = 54 := by
    rw [sexagesimal_digit_eval (-33865 / 1000) 3600 121914 121914
      (by norm_num [abs_of_neg]) (by norm_num) (by norm_num) (by norm_num) (by norm_num)
      (by norm_num)]
    rfl
  have d2 : float_to_int (-122333 / 1000) = -122 :=
    float_to_int_of_neg _ _ (by norm_num) (by norm_num) (by norm_num)
  have m2 : sexagesimal_digit (-122333 / 1000) 60 = 19 := by
    rw [sexagesimal_digit_eval (-122333 / 1000) 60 7339 (733998 / 100)
      (by norm_num [abs_of_neg]) (by norm_num) (by norm_num) (by norm_num) (by norm_num)
      (by norm_num)]
    rfl
  have s2 : sexagesimal_digit (-122333 / 1000) 3600 = 58 := by
    rw [sexagesimal_digit_eval (-122333 / 1000) 3600 440398 (4403988 / 10)
      (by norm_num [abs_of_neg]) (by norm_num) (by norm_num) (by norm_num) (by norm_num)
      (by norm_num)]
    rfl
  have l1 : (GeoPos.zero.set_lat (-33865 / 1000)).lat = -32135 / 1000 := by
    simp only [GeoPos.lat, GeoPos.set_lat, d1, m1, s1]; norm_num
  have l2 : (GeoPos.zero.set_lon (-122333 / 1000)).lon = -219001 / 1800 := by
    simp only [GeoPos.lon, GeoPos.set_lon, d2, m2, s2]; norm_num
  refine ⟨d1, m1, s1, l1, ?_, d2, m2, s2, ?_⟩
  · rw [l1]; norm_num [abs_le]
  · rw [l2]; norm_num [abs_le]

/-- C8 fails on the code: `set_read_only(v)` passes `~v` to `set_focusable`;
the complement of the promoted `bool` is `-2` or `-1`, never zero, so the
widget is focusable after `set_read_only(true)` as well as after
`set_read_only(false)`. -/
theorem set_read_only_leaves_focusable (g : GeoPos) (v : Bool) :
    (g.set_read_only v).focusable = true ∧
    (GeoPos.zero.set_read_only true).focusable = true := by
  cases v <;> exact ⟨rfl, rfl⟩

/-! ## GeoMap -/

end ui
